import Mathlib

/-!
Verification of the API-key authentication and authorization core of the
blog-server repository.

The data model follows the `api_keys`, `api_key_usage` and
`api_key_site_access` tables of `007_api_keys.sql` together with the
TypeDoc interface `ValidatedApiKey`.  The SQL function
`api_key_has_access` and the Express middleware `authenticateApiKey`
(api/middleware/auth.ts) are embedded directly from the source.  The
TypeScript library `src/lib/api-keys.ts` itself is not part of the
repository snapshot (only its TypeDoc pages, its vitest suite and the SQL
migration are), so its functions are modelled from the specification, as
noted on each definition.
-/

namespace BlogServer

/-- Permission scope of an API key, from the SQL enum `api_key_scope`. -/
inductive Scope where
  | read
  | write
  | delete
  | admin
  deriving DecidableEq, Repr

/-- Kind of an API key, from the SQL enum `api_key_type`. -/
inductive KeyType where
  | user
  | site
  | admin
  deriving DecidableEq, Repr

/-- A stored API key record, following the columns of the `api_keys` table
in `007_api_keys.sql`.  Timestamps are modelled as natural numbers. -/
structure ApiKeyRecord where
  id : String
  name : String
  description : Option String
  keyHash : String
  keyType : KeyType
  userId : Option String
  siteId : Option String
  scopes : List Scope
  rateLimitPerMinute : Nat
  rateLimitPerDay : Nat
  isActive : Bool
  expiresAt : Option Nat
  revokedAt : Option Nat
  revokedBy : Option String
  revokeReason : Option String
  allowedIps : List String
  allowedOrigins : List String
  usageCount : Nat
  lastUsedAt : Option Nat
  deriving DecidableEq, Repr

/-- The in-memory projection of a key record returned by the validator,
following the TypeDoc interface `ValidatedApiKey`: it carries no hash and
no other secret-derived field. -/
structure ValidatedApiKey where
  id : String
  name : String
  keyType : KeyType
  userId : Option String
  siteId : Option String
  scopes : List Scope
  rateLimitPerMinute : Nat
  rateLimitPerDay : Nat
  allowedIps : List String
  allowedOrigins : List String
  deriving DecidableEq, Repr

/-- A row of the `sites` table, reduced to the columns consulted by the
access checks (`id` and `owner_id`). -/
structure SiteRec where
  id : String
  ownerId : String
  deriving DecidableEq, Repr

/-- A row of the `site_members` table, reduced to the columns consulted by
the access checks. -/
structure SiteMember where
  siteId : String
  userId : String
  deriving DecidableEq, Repr

/-- A row of the `api_key_site_access` table: an explicit per-site grant
for one key. -/
structure SiteAccessGrant where
  apiKeyId : String
  siteId : String
  scopes : List Scope
  deriving DecidableEq, Repr

/-- A row of the `api_key_usage` table. -/
structure UsageEvent where
  apiKeyId : String
  endpoint : String
  method : String
  statusCode : Option Int
  responseTimeMs : Option Int
  ipAddress : Option String
  userAgent : Option String
  origin : Option String
  createdAt : Nat
  deriving DecidableEq, Repr

/-- The persistence gateway state: the tables consulted by the api-key
core. -/
structure Db where
  apiKeys : List ApiKeyRecord
  sites : List SiteRec
  siteMembers : List SiteMember
  siteAccess : List SiteAccessGrant
  usage : List UsageEvent
  deriving DecidableEq, Repr

/-- Projection of a stored record into the identity handed to the
authorization checks, following the TypeDoc interface `ValidatedApiKey`
(no hash field is carried over). -/
def toValidatedApiKey (k : ApiKeyRecord) : ValidatedApiKey :=
  { id := k.id
  , name := k.name
  , keyType := k.keyType
  , userId := k.userId
  , siteId := k.siteId
  , scopes := k.scopes
  , rateLimitPerMinute := k.rateLimitPerMinute
  , rateLimitPerDay := k.rateLimitPerDay
  , allowedIps := k.allowedIps
  , allowedOrigins := k.allowedOrigins }

/-- Modelled from the spec: `hasScope` of the missing `src/lib/api-keys.ts`
(spec 4.4) — true if the scope is in the key scope list, or if the list
contains the admin scope. -/
def hasScope (k : ValidatedApiKey) (requiredScope : Scope) : Bool :=
  k.scopes.contains requiredScope || k.scopes.contains Scope.admin

/-- Modelled from the spec: `isIpAllowed` of the missing
`src/lib/api-keys.ts` (spec 4.6) — true if the allow-list is empty or the
ip is an exact member. -/
def isIpAllowed (k : ValidatedApiKey) (ip : String) : Bool :=
  k.allowedIps.isEmpty || k.allowedIps.contains ip

/-- Modelled from the spec: `isOriginAllowed` of the missing
`src/lib/api-keys.ts` (spec 4.6) — true if the allow-list is empty or the
origin is an exact member. -/
def isOriginAllowed (k : ValidatedApiKey) (origin : String) : Bool :=
  k.allowedOrigins.isEmpty || k.allowedOrigins.contains origin

/-- True of a site record owned by the given (optional) user id. -/
def siteOwnedBy (db : Db) (siteId : String) (userId : Option String) : Bool :=
  db.sites.any fun s => s.id == siteId && userId == some s.ownerId

/-- True when the given (optional) user id appears in the membership list
of the site. -/
def siteHasMember (db : Db) (siteId : String) (userId : Option String) : Bool :=
  db.siteMembers.any fun m => m.siteId == siteId && userId == some m.userId

/-- Lookup of the unique `api_key_site_access` row for a (key, site)
pair. -/
def findGrant (db : Db) (keyId : String) (siteId : String) : Option SiteAccessGrant :=
  db.siteAccess.find? fun g => g.apiKeyId == keyId && g.siteId == siteId

/-- Modelled from the spec: `hasAccessToSite` of the missing
`src/lib/api-keys.ts` (spec 4.4), mirroring the SQL function
`api_key_has_access` of `007_api_keys.sql`.  Evaluated in order: admin
bypass, scope gate, exact site match for site keys, then
ownership / membership / explicit grant for user keys. -/
def hasAccessToSite (db : Db) (k : ValidatedApiKey) (siteId : String)
    (requiredScope : Scope) : Bool :=
  if k.keyType == KeyType.admin then
    true
  else if !(hasScope k requiredScope) then
    false
  else if k.keyType == KeyType.site then
    k.siteId == some siteId
  else if k.keyType == KeyType.user then
    if siteOwnedBy db siteId k.userId then
      true
    else if siteHasMember db siteId k.userId then
      true
    else
      match findGrant db k.id siteId with
      | some g => g.scopes.contains requiredScope
      | none => false
  else
    false

/-- Liveness test of a key record used by the SQL function
`api_key_has_access` in `007_api_keys.sql`: active, not expired
(`expires_at IS NULL OR expires_at > NOW()`), not revoked. -/
def keyIsLiveSql (k : ApiKeyRecord) (now : Nat) : Bool :=
  k.isActive
    && (match k.expiresAt with
        | none => true
        | some e => now < e)
    && k.revokedAt == none

/-- Embedding of the SQL function `api_key_has_access` of
`007_api_keys.sql`: fetches the key by id (rejecting inactive, expired or
revoked keys), then admin bypass, direct scope membership, exact site
match for site keys, and ownership / membership / explicit grant for user
keys. -/
def api_key_has_access (db : Db) (now : Nat) (keyId : String)
    (siteId : String) (requiredScope : Scope) : Bool :=
  match db.apiKeys.find? (fun k => k.id == keyId && keyIsLiveSql k now) with
  | none => false
  | some k =>
    if k.keyType == KeyType.admin then
      true
    else if !(k.scopes.contains requiredScope) then
      false
    else if k.keyType == KeyType.site then
      k.siteId == some siteId
    else if k.keyType == KeyType.user then
      if db.sites.any (fun s => s.id == siteId && k.userId == some s.ownerId) then
        true
      else if db.siteMembers.any (fun m => m.siteId == siteId && k.userId == some m.userId) then
        true
      else
        match db.siteAccess.find? (fun g => g.apiKeyId == keyId && g.siteId == siteId) with
        | some g => g.scopes.contains requiredScope
        | none => false
    else
      false

/-- Modelled from the spec: liveness test of `validateApiKey` of the
missing `src/lib/api-keys.ts` (spec 4.3) — reject when inactive, revoked,
or the expiry is non-null and in the past. -/
def keyIsLive (k : ApiKeyRecord) (now : Nat) : Bool :=
  k.isActive
    && k.revokedAt == none
    && (match k.expiresAt with
        | none => true
        | some e => !(e < now))

/-- Modelled from the spec: `validateApiKey` of the missing
`src/lib/api-keys.ts` (spec 4.3) — a single lookup by hash, followed by
the liveness test, returning the projected identity.  The hash function
of the Key Codec is passed as a parameter. -/
def validateApiKey (hashFn : String → String) (db : Db) (now : Nat)
    (rawKey : String) : Option ValidatedApiKey :=
  match db.apiKeys.find? (fun k => k.keyHash == hashFn rawKey) with
  | none => none
  | some k => if keyIsLive k now then some (toValidatedApiKey k) else none

/-- Options accepted by `createApiKey`, following the TypeDoc interface
`CreateApiKeyOptions` and the vitest suite. -/
structure CreateApiKeyOptions where
  name : String
  description : Option String
  keyType : KeyType
  userId : Option String
  siteId : Option String
  scopes : List Scope
  rateLimitPerMinute : Nat
  rateLimitPerDay : Nat
  expiresAt : Option Nat
  allowedIps : List String
  allowedOrigins : List String
  deriving DecidableEq, Repr

/-- Type tag of a generated key string (`sk` user, `ss` site, `sa`
admin), from the key-format contract and the vitest suite. -/
def keyTypeTag : KeyType → String
  | KeyType.user => "sk"
  | KeyType.site => "ss"
  | KeyType.admin => "sa"

/-- Modelled from the spec: the creation-time validation of `createApiKey`
of the missing `src/lib/api-keys.ts` (spec 4.2), with the error messages
asserted by the vitest suite. -/
def createKeyError (o : CreateApiKeyOptions) : Option String :=
  if o.keyType == KeyType.user && o.userId == none then
    some "User keys require a user_id"
  else if o.keyType == KeyType.site && (o.siteId == none || o.userId == none) then
    some "Site keys require both site_id and user_id"
  else if o.keyType == KeyType.admin && (!(o.userId == none) || !(o.siteId == none)) then
    some "Admin keys cannot have user_id or site_id"
  else if !(o.keyType == KeyType.admin) && o.scopes.contains Scope.admin then
    some "Only admin keys can have admin scope"
  else
    none

/-- Modelled from the spec: `createApiKey` of the missing
`src/lib/api-keys.ts` (spec 4.2) — validate the option combination,
assemble the secret from the type tag and the random token, and persist a
record carrying only the hash of the secret.  The codec randomness and
the generated row id are passed as parameters. -/
def createApiKey (hashFn : String → String) (db : Db) (newId : String)
    (rand : String) (o : CreateApiKeyOptions) :
    Except String (Db × String) :=
  match createKeyError o with
  | some e => Except.error e
  | none =>
    let secret := keyTypeTag o.keyType ++ "_live_" ++ rand
    let k : ApiKeyRecord :=
      { id := newId
      , name := o.name
      , description := o.description
      , keyHash := hashFn secret
      , keyType := o.keyType
      , userId := o.userId
      , siteId := o.siteId
      , scopes := o.scopes
      , rateLimitPerMinute := o.rateLimitPerMinute
      , rateLimitPerDay := o.rateLimitPerDay
      , isActive := true
      , expiresAt := o.expiresAt
      , revokedAt := none
      , revokedBy := none
      , revokeReason := none
      , allowedIps := o.allowedIps
      , allowedOrigins := o.allowedOrigins
      , usageCount := 0
      , lastUsedAt := none }
    Except.ok ({ db with apiKeys := db.apiKeys ++ [k] }, secret)

/-- Modelled from the spec: the per-record effect of `revokeApiKey` of the
missing `src/lib/api-keys.ts` (spec 4.2) — an already-revoked key is left
untouched (idempotent no-op), otherwise the key is deactivated and the
revocation fields are set. -/
def revokeRecord (keyId : String) (actor : Option String)
    (reason : Option String) (now : Nat) (k : ApiKeyRecord) : ApiKeyRecord :=
  if k.id == keyId && k.revokedAt == none then
    { k with isActive := false
           , revokedAt := some now
           , revokedBy := actor
           , revokeReason := reason }
  else
    k

/-- Modelled from the spec: `revokeApiKey` of the missing
`src/lib/api-keys.ts` (spec 4.2). -/
def revokeApiKey (db : Db) (keyId : String) (actor : Option String)
    (reason : Option String) (now : Nat) : Db :=
  { db with apiKeys := db.apiKeys.map (revokeRecord keyId actor reason now) }

/-- Modelled from the spec: `recordUsage` of the missing
`src/lib/api-keys.ts` (spec 4.5) — appends a usage row and in the same
operation bumps the usage counter and the last-used timestamp of the
key. -/
def recordUsage (db : Db) (keyId : String) (e : UsageEvent) : Db :=
  { db with
      apiKeys := db.apiKeys.map fun k =>
        if k.id == keyId then
          { k with usageCount := k.usageCount + 1, lastUsedAt := some e.createdAt }
        else
          k
    , usage := db.usage ++ [{ e with apiKeyId := keyId }] }

/-- Aggregate result of `getKeyUsageStats`, following its TypeDoc page. -/
structure UsageStats where
  totalRequests : Nat
  successfulRequests : Nat
  failedRequests : Nat
  avgResponseTime : Rat
  topEndpoints : List (String × Nat)
  deriving DecidableEq, Repr

/-- Modelled from the spec: the date-range filter of `getKeyUsageStats`
(spec 4.5), inclusive on both optional bounds. -/
def inRange (startDate endDate : Option Nat) (t : Nat) : Bool :=
  (match startDate with
   | none => true
   | some s0 => s0 ≤ t)
    && (match endDate with
        | none => true
        | some e0 => t ≤ e0)

/-- Modelled from the spec: a usage event is successful when its status
code is in [200, 400) (spec 4.5). -/
def isSuccessEvent (e : UsageEvent) : Bool :=
  match e.statusCode with
  | some c => 200 ≤ c && c < 400
  | none => false

/-- Modelled from the spec: a usage event is failed when its status code
is at least 400 (spec 4.5). -/
def isFailureEvent (e : UsageEvent) : Bool :=
  match e.statusCode with
  | some c => 400 ≤ c
  | none => false

/-- Comparator for the endpoint ranking of `getKeyUsageStats`: request
count descending, ties broken by endpoint name ascending. -/
def endpointLE (a b : String × Nat) : Bool :=
  decide (b.2 < a.2) || (decide (a.2 = b.2) && decide (a.1 ≤ b.1))

/-- Insertion into a list sorted by `endpointLE`. -/
def insertEndpoint (x : String × Nat) : List (String × Nat) → List (String × Nat)
  | [] => [x]
  | y :: ys => if endpointLE x y then x :: y :: ys else y :: insertEndpoint x ys

/-- Insertion sort by `endpointLE`. -/
def sortEndpoints (l : List (String × Nat)) : List (String × Nat) :=
  l.foldr insertEndpoint []

/-- Modelled from the spec: `getKeyUsageStats` of the missing
`src/lib/api-keys.ts` (spec 4.5) — counts over the range-filtered events
of the key, the arithmetic mean of the recorded response times, and the
top five endpoints ranked by request count descending with ties broken by
name ascending. -/
def getKeyUsageStats (db : Db) (keyId : String)
    (startDate endDate : Option Nat) : UsageStats :=
  let events := db.usage.filter fun e =>
    e.apiKeyId == keyId && inRange startDate endDate e.createdAt
  let times := events.filterMap fun e => e.responseTimeMs
  let names := (events.map fun e => e.endpoint).eraseDups
  let counts := names.map fun n =>
    (n, (events.filter fun e => e.endpoint == n).length)
  { totalRequests := events.length
  , successfulRequests := (events.filter isSuccessEvent).length
  , failedRequests := (events.filter isFailureEvent).length
  , avgResponseTime :=
      if times.length = 0 then 0
      else ((times.map fun t => (t : Rat)).sum) / (times.length : Rat)
  , topEndpoints := (sortEndpoints counts).take 5 }

/-- The parts of an HTTP request read by the authentication middleware of
`api/middleware/auth.ts`. -/
structure HttpRequest where
  authorization : Option String
  xApiKey : Option String
  origin : Option String
  xForwardedFor : Option String
  remoteAddress : Option String
  deriving DecidableEq, Repr

/-- Embedding of `extractApiKey` of `api/middleware/auth.ts`: a Bearer
value of the Authorization header takes precedence, else the X-API-Key
header. -/
def extractApiKey (req : HttpRequest) : Option String :=
  match req.authorization with
  | some h => if h.startsWith "Bearer " then some (h.drop 7) else req.xApiKey
  | none => req.xApiKey

/-- Embedding of `getClientIp` of `api/middleware/auth.ts`: the first
entry of X-Forwarded-For when present, else the socket address, else
"unknown". -/
def getClientIp (req : HttpRequest) : String :=
  match req.xForwardedFor with
  | some f => ((f.splitOn ",").headD "").trim
  | none => req.remoteAddress.getD "unknown"

/-- Outcome of the authentication middleware, by the response it sends. -/
inductive AuthResult where
  | unauthorizedMissingKey
  | unauthorizedInvalidKey
  | forbiddenIp
  | forbiddenOrigin
  | ok (key : ValidatedApiKey)
  deriving DecidableEq, Repr

/-- Embedding of the middleware `authenticateApiKey` of
`api/middleware/auth.ts`: extract the credential, validate it, enforce
the IP allow-list on every request, and enforce the origin allow-list
only when the request carries an Origin header. -/
def authenticateApiKey (hashFn : String → String) (db : Db) (now : Nat)
    (req : HttpRequest) : AuthResult :=
  match extractApiKey req with
  | none => AuthResult.unauthorizedMissingKey
  | some raw =>
    match validateApiKey hashFn db now raw with
    | none => AuthResult.unauthorizedInvalidKey
    | some validatedKey =>
      if !(isIpAllowed validatedKey (getClientIp req)) then
        AuthResult.forbiddenIp
      else
        match req.origin with
        | some o =>
          if !(isOriginAllowed validatedKey o) then AuthResult.forbiddenOrigin
          else AuthResult.ok validatedKey
        | none => AuthResult.ok validatedKey

/-! ## Shared concrete fixtures -/

/-- A database with every table empty. -/
def emptyDb : Db := ⟨[], [], [], [], []⟩

/-- A validated identity of an admin key whose scope list is just the
admin scope. -/
def adminScopedIdentity : ValidatedApiKey :=
  ⟨"key-admin", "AdminKey", KeyType.admin, none, none, [Scope.admin], 60, 10000, [], []⟩

/-- A validated identity of a user key holding only the read scope. -/
def readOnlyIdentity : ValidatedApiKey :=
  ⟨"key-read", "ReadOnlyKey", KeyType.user, some "user-1", none, [Scope.read], 60, 10000, [], []⟩

/-- A validated identity of a site key bound to site-a and owned by
user-1. -/
def siteKeyA : ValidatedApiKey :=
  ⟨"key-site-a", "SiteKeyA", KeyType.site, some "user-1", some "site-a",
    [Scope.read, Scope.write], 60, 10000, [], []⟩

/-- A database where user-1 owns both site-a and site-b and the site key
even holds an explicit grant on site-b. -/
def dbTwoSites : Db :=
  ⟨[], [⟨"site-a", "user-1"⟩, ⟨"site-b", "user-1"⟩], [],
    [⟨"key-site-a", "site-b", [Scope.read]⟩], []⟩

/-! ## Helper lemmas -/

/-- Boolean list containment agrees with membership. -/
theorem contains_mem_iff {α} [DecidableEq α] (l : List α) (a : α) :
    l.contains a = true ↔ a ∈ l :=
  List.elem_iff

/-- The ownership test agrees with the existence of an owned site row. -/
theorem siteOwnedBy_iff (db : Db) (siteId : String) (u : Option String) :
    siteOwnedBy db siteId u = true ↔
      ∃ st ∈ db.sites, st.id = siteId ∧ u = some st.ownerId := by
  simp [siteOwnedBy, List.any_eq_true]

/-- The membership test agrees with the existence of a member row. -/
theorem siteHasMember_iff (db : Db) (siteId : String) (u : Option String) :
    siteHasMember db siteId u = true ↔
      ∃ m ∈ db.siteMembers, m.siteId = siteId ∧ u = some m.userId := by
  simp [siteHasMember, List.any_eq_true]

/-- A found grant is a matching row of the table. -/
theorem findGrant_some (db : Db) (kid sid : String) (g : SiteAccessGrant)
    (h : findGrant db kid sid = some g) :
    g ∈ db.siteAccess ∧ g.apiKeyId = kid ∧ g.siteId = sid := by
  have hmem := List.mem_of_find?_eq_some h
  have hp := List.find?_some h
  simp only [Bool.and_eq_true, beq_iff_eq] at hp
  exact ⟨hmem, hp.1, hp.2⟩

/-- When the grant lookup fails, no row of the table matches. -/
theorem findGrant_none (db : Db) (kid sid : String)
    (h : findGrant db kid sid = none) :
    ∀ g ∈ db.siteAccess, ¬(g.apiKeyId = kid ∧ g.siteId = sid) := by
  intro g hg
  have := List.find?_eq_none.mp h g hg
  simp only [Bool.and_eq_true, beq_iff_eq] at this
  exact fun hc => this ⟨hc.1, hc.2⟩

/-! ## C6: scope checking -/

/-- C6: hasScope is true exactly when the scope is in the identity scope
list or that list contains the admin scope; an identity with scopes
[admin] passes every scope check and one with scopes [read] fails the
write check. -/
theorem hasScope_spec :
    (∀ (k : ValidatedApiKey) (s : Scope),
      hasScope k s = true ↔ (s ∈ k.scopes ∨ Scope.admin ∈ k.scopes)) ∧
    (∀ s : Scope, hasScope adminScopedIdentity s = true) ∧
    hasScope readOnlyIdentity Scope.write = false := by
  refine ⟨fun k s => ?_, fun s => by cases s <;> decide, by decide⟩
  simp [hasScope, contains_mem_iff]

/-! ## C8: IP and origin allow-lists -/

/-- C8: the IP check passes exactly when the IP allow-list is empty or
holds the exact string, and the origin check behaves identically over the
origin allow-list; there is no wildcard or subnet matching. -/
theorem allowLists_spec :
    (∀ (k : ValidatedApiKey) (ip : String),
      isIpAllowed k ip = true ↔ (k.allowedIps = [] ∨ ip ∈ k.allowedIps)) ∧
    (∀ (k : ValidatedApiKey) (origin : String),
      isOriginAllowed k origin = true ↔
        (k.allowedOrigins = [] ∨ origin ∈ k.allowedOrigins)) := by
  constructor
  · intro k ip
    simp [isIpAllowed, contains_mem_iff, List.isEmpty_iff]
  · intro k origin
    simp [isOriginAllowed, contains_mem_iff, List.isEmpty_iff]

/-! ## C2: admin keys bypass every site-level check -/

/-- C2: an admin-type identity is granted access to every site id and
every required scope, for every database state, so neither ownership,
membership, grants nor the scope list are consulted. -/
theorem hasAccessToSite_admin_bypass (db : Db) (k : ValidatedApiKey)
    (siteId : String) (s : Scope) (h : k.keyType = KeyType.admin) :
    hasAccessToSite db k siteId s = true := by
  simp [hasAccessToSite, h]

/-- Witness for C2: an admin key reaches a nonexistent site id with the
delete scope over an empty database. -/
theorem hasAccessToSite_admin_bypass_witness :
    adminScopedIdentity.keyType = KeyType.admin ∧
    hasAccessToSite emptyDb adminScopedIdentity "no-such-site" Scope.delete = true :=
  ⟨rfl, hasAccessToSite_admin_bypass emptyDb adminScopedIdentity "no-such-site"
    Scope.delete rfl⟩

/-! ## C5: site keys match their own site exactly -/

/-- C5: a site-type identity that passes the scope gate is granted access
exactly when its bound site id equals the target site id, for every
database state, so no ownership, membership or grant fallback is
consulted. -/
theorem hasAccessToSite_site_key_exact (db : Db) (k : ValidatedApiKey)
    (siteId : String) (s : Scope) (ht : k.keyType = KeyType.site)
    (hs : hasScope k s = true) :
    hasAccessToSite db k siteId s = true ↔ k.siteId = some siteId := by
  simp [hasAccessToSite, ht, hs]

/-- Witness for C5: a site key bound to site-a, checked against site-b
which is owned by the same user and even carries an explicit grant for
the key; access is still equivalent to the (failing) exact site match. -/
theorem hasAccessToSite_site_key_exact_witness :
    siteKeyA.keyType = KeyType.site ∧
    hasScope siteKeyA Scope.read = true ∧
    (hasAccessToSite dbTwoSites siteKeyA "site-b" Scope.read = true ↔
      siteKeyA.siteId = some "site-b") :=
  ⟨rfl, by decide,
    hasAccessToSite_site_key_exact dbTwoSites siteKeyA "site-b" Scope.read rfl
      (by decide)⟩

/-! ## C1: user keys — scope gate plus ownership, membership or grant -/

/-- A database with a site owned by someone else and a single explicit
grant of the read scope on site-y for the read-only key. -/
def dbGrantOnly : Db :=
  ⟨[], [⟨"site-x", "user-2"⟩], [],
    [⟨"key-read", "site-y", [Scope.read]⟩], []⟩

/-- C1: for a user-type identity (with at most one grant row per
(key, site) pair, the uniqueness the table enforces), access holds
exactly when the scope gate passes and the owner owns the site, is a
member of it, or an explicit grant for (key, site) carries the required
scope; in particular a key lacking the scope is always denied. -/
theorem hasAccessToSite_user_key_spec (db : Db) (k : ValidatedApiKey)
    (siteId : String) (s : Scope) (ht : k.keyType = KeyType.user)
    (huniq : ∀ g₁ ∈ db.siteAccess, ∀ g₂ ∈ db.siteAccess,
      g₁.apiKeyId = k.id → g₁.siteId = siteId →
      g₂.apiKeyId = k.id → g₂.siteId = siteId → g₁ = g₂) :
    (hasAccessToSite db k siteId s = true ↔
      (hasScope k s = true ∧
        ((∃ st ∈ db.sites, st.id = siteId ∧ k.userId = some st.ownerId) ∨
         (∃ m ∈ db.siteMembers, m.siteId = siteId ∧ k.userId = some m.userId) ∨
         (∃ g ∈ db.siteAccess, g.apiKeyId = k.id ∧ g.siteId = siteId ∧
            s ∈ g.scopes)))) ∧
    (hasScope k s = false → hasAccessToSite db k siteId s = false) := by
  refine ⟨?_, fun hsc => by simp [hasAccessToSite, ht, hsc]⟩
  cases hsc : hasScope k s with
  | false =>
    constructor
    · intro hacc
      simp [hasAccessToSite, ht, hsc] at hacc
    · rintro ⟨h1, -⟩
      exact absurd h1 (by simp [hsc])
  | true =>
    by_cases how : siteOwnedBy db siteId k.userId = true
    · have hex := (siteOwnedBy_iff db siteId k.userId).mp how
      simp [hasAccessToSite, ht, hsc, how, hex]
    · by_cases hmem : siteHasMember db siteId k.userId = true
      · have hex := (siteHasMember_iff db siteId k.userId).mp hmem
        simp [hasAccessToSite, ht, hsc, how, hmem, hex]
      · have hnex1 : ¬∃ st ∈ db.sites, st.id = siteId ∧ k.userId = some st.ownerId :=
          fun hex => how ((siteOwnedBy_iff db siteId k.userId).mpr hex)
        have hnex2 : ¬∃ m ∈ db.siteMembers, m.siteId = siteId ∧ k.userId = some m.userId :=
          fun hex => hmem ((siteHasMember_iff db siteId k.userId).mpr hex)
        cases hg : findGrant db k.id siteId with
        | none =>
          have hnog : ¬∃ g ∈ db.siteAccess,
              g.apiKeyId = k.id ∧ g.siteId = siteId ∧ s ∈ g.scopes := by
            rintro ⟨g, hgmem, h1, h2, _⟩
            exact findGrant_none db k.id siteId hg g hgmem ⟨h1, h2⟩
          simp [hasAccessToSite, ht, hsc, how, hmem, hg, hnex1, hnex2, hnog]
        | some g =>
          obtain ⟨hgmem, hgk, hgs⟩ := findGrant_some db k.id siteId g hg
          constructor
          · intro hacc
            simp [hasAccessToSite, ht, hsc, how, hmem, hg] at hacc
            exact ⟨rfl, Or.inr (Or.inr ⟨g, hgmem, hgk, hgs, hacc⟩)⟩
          · rintro ⟨-, hca⟩
            rcases hca with hex | hex | ⟨g2, hg2mem, hg2k, hg2s, hg2sc⟩
            · exact absurd hex hnex1
            · exact absurd hex hnex2
            · have hgg : g2 = g := huniq g2 hg2mem g hgmem hg2k hg2s hgk hgs
              subst hgg
              simp [hasAccessToSite, ht, hsc, how, hmem, hg, hg2sc]

/-- Witness for C1: the read-only user key, a site owned by someone else,
and an explicit read grant on site-y. -/
theorem hasAccessToSite_user_key_spec_witness :
    readOnlyIdentity.keyType = KeyType.user ∧
    ((hasAccessToSite dbGrantOnly readOnlyIdentity "site-y" Scope.read = true ↔
      (hasScope readOnlyIdentity Scope.read = true ∧
        ((∃ st ∈ dbGrantOnly.sites, st.id = "site-y" ∧
            readOnlyIdentity.userId = some st.ownerId) ∨
         (∃ m ∈ dbGrantOnly.siteMembers, m.siteId = "site-y" ∧
            readOnlyIdentity.userId = some m.userId) ∨
         (∃ g ∈ dbGrantOnly.siteAccess, g.apiKeyId = readOnlyIdentity.id ∧
            g.siteId = "site-y" ∧ Scope.read ∈ g.scopes)))) ∧
     (hasScope readOnlyIdentity Scope.read = false →
       hasAccessToSite dbGrantOnly readOnlyIdentity "site-y" Scope.read = false)) :=
  ⟨rfl, hasAccessToSite_user_key_spec dbGrantOnly readOnlyIdentity "site-y"
    Scope.read rfl (by decide)⟩

/-! ## C3: the validator -/

/-- Decomposition of the validator liveness test. -/
theorem keyIsLive_iff (k : ApiKeyRecord) (now : Nat) :
    keyIsLive k now = true ↔
      (k.isActive = true ∧ k.revokedAt = none ∧
        ∀ e, k.expiresAt = some e → ¬e < now) := by
  cases hx : k.expiresAt with
  | none => simp [keyIsLive, hx]
  | some e => simp [keyIsLive, hx, and_assoc]

/-- Decomposition of a failing validator liveness test. -/
theorem keyIsLive_eq_false_iff (k : ApiKeyRecord) (now : Nat) :
    keyIsLive k now = false ↔
      (k.isActive = false ∨ k.revokedAt ≠ none ∨
        ∃ e, k.expiresAt = some e ∧ e < now) := by
  rw [← Bool.not_eq_true, keyIsLive_iff]
  cases hx : k.expiresAt with
  | none =>
    cases ha : k.isActive <;> simp [hx]
  | some e =>
    cases ha : k.isActive <;> by_cases he : e < now <;> simp [hx, he]

/-- C3: the validator returns none exactly when no record carries the
hash of the credential or the unique carrying record is inactive, revoked
or expired; a returned identity is the projection of the matching record
(which carries no hash field); and validating the secret returned by a
fresh create yields an identity with the new id, type and scopes. -/
theorem validateApiKey_spec (hashFn : String → String) (db : Db) (now : Nat)
    (raw : String)
    (huniq : ∀ k₁ ∈ db.apiKeys, ∀ k₂ ∈ db.apiKeys,
      k₁.keyHash = hashFn raw → k₂.keyHash = hashFn raw → k₁ = k₂) :
    (validateApiKey hashFn db now raw = none ↔
      ((∀ k ∈ db.apiKeys, k.keyHash ≠ hashFn raw) ∨
       (∃ k ∈ db.apiKeys, k.keyHash = hashFn raw ∧
         (k.isActive = false ∨ k.revokedAt ≠ none ∨
          ∃ e, k.expiresAt = some e ∧ e < now)))) ∧
    (∀ v, validateApiKey hashFn db now raw = some v →
      ∃ k ∈ db.apiKeys, k.keyHash = hashFn raw ∧ v = toValidatedApiKey k) ∧
    (∀ (o : CreateApiKeyOptions) (newId rand : String) (db2 : Db)
        (secret : String),
      createApiKey hashFn db newId rand o = Except.ok (db2, secret) →
      (∀ k ∈ db.apiKeys, k.keyHash ≠ hashFn secret) →
      (∀ e, o.expiresAt = some e → ¬e < now) →
      ∃ v, validateApiKey hashFn db2 now secret = some v ∧
        v.id = newId ∧ v.keyType = o.keyType ∧ v.scopes = o.scopes) := by
  refine ⟨?_, ?_, ?_⟩
  · cases hf : db.apiKeys.find? (fun k => k.keyHash == hashFn raw) with
    | none =>
      have hno : ∀ k ∈ db.apiKeys, k.keyHash ≠ hashFn raw := by
        intro k hk hkh
        have hbe := List.find?_eq_none.mp hf k hk
        simp [hkh] at hbe
      simp only [validateApiKey, hf]
      exact iff_of_true trivial (Or.inl hno)
    | some k =>
      have hkmem := List.mem_of_find?_eq_some hf
      have hkh : k.keyHash = hashFn raw := by simpa using List.find?_some hf
      cases hl : keyIsLive k now with
      | true =>
        simp only [validateApiKey, hf, hl, if_true]
        refine iff_of_false (by simp) ?_
        rintro (hno | ⟨k2, hk2mem, hk2h, hbad⟩)
        · exact hno k hkmem hkh
        · have hke : k2 = k := huniq k2 hk2mem k hkmem hk2h hkh
          subst hke
          rw [← keyIsLive_eq_false_iff k2 now] at hbad
          rw [hl] at hbad
          cases hbad
      | false =>
        simp only [validateApiKey, hf, hl, if_false]
        exact iff_of_true (by simp)
          (Or.inr ⟨k, hkmem, hkh, (keyIsLive_eq_false_iff k now).mp hl⟩)
  · intro v hv
    cases hf : db.apiKeys.find? (fun k => k.keyHash == hashFn raw) with
    | none => simp [validateApiKey, hf] at hv
    | some k =>
      have hkmem := List.mem_of_find?_eq_some hf
      have hkh : k.keyHash = hashFn raw := by simpa using List.find?_some hf
      cases hl : keyIsLive k now with
      | true =>
        simp only [validateApiKey, hf, hl, if_true, Option.some.injEq] at hv
        exact ⟨k, hkmem, hkh, hv.symm⟩
      | false => simp [validateApiKey, hf, hl] at hv
  · intro o newId rand db2 secret hok hfresh hexp
    cases hce : createKeyError o with
    | some e => simp [createApiKey, hce] at hok
    | none =>
      simp only [createApiKey, hce, Except.ok.injEq, Prod.mk.injEq] at hok
      obtain ⟨hdb2, hsecret⟩ := hok
      subst hdb2
      subst hsecret
      have hnone : db.apiKeys.find?
          (fun k => k.keyHash == hashFn (keyTypeTag o.keyType ++ "_live_" ++ rand)) = none := by
        rw [List.find?_eq_none]
        intro k hk
        simp [hfresh k hk]
      have hlive : keyIsLive
          { id := newId, name := o.name, description := o.description,
            keyHash := hashFn (keyTypeTag o.keyType ++ "_live_" ++ rand),
            keyType := o.keyType, userId := o.userId, siteId := o.siteId,
            scopes := o.scopes, rateLimitPerMinute := o.rateLimitPerMinute,
            rateLimitPerDay := o.rateLimitPerDay, isActive := true,
            expiresAt := o.expiresAt, revokedAt := none, revokedBy := none,
            revokeReason := none, allowedIps := o.allowedIps,
            allowedOrigins := o.allowedOrigins, usageCount := 0,
            lastUsedAt := none } now = true := by
        rw [keyIsLive_iff]
        exact ⟨rfl, rfl, fun e he => hexp e he⟩
      refine ⟨⟨newId, o.name, o.keyType, o.userId, o.siteId, o.scopes,
        o.rateLimitPerMinute, o.rateLimitPerDay, o.allowedIps, o.allowedOrigins⟩,
        ?_, rfl, rfl, rfl⟩
      simp only [validateApiKey, List.find?_append, hnone, Option.none_or,
        List.find?_singleton]
      simp [hlive, toValidatedApiKey]

/-- Witness for C3: the empty database, the identity hash function, and a
credential no record carries. -/
theorem validateApiKey_spec_witness :
    ((validateApiKey (fun s => s) emptyDb 10 "sk_live_x" = none ↔
      ((∀ k ∈ emptyDb.apiKeys, k.keyHash ≠ "sk_live_x") ∨
       (∃ k ∈ emptyDb.apiKeys, k.keyHash = "sk_live_x" ∧
         (k.isActive = false ∨ k.revokedAt ≠ none ∨
          ∃ e, k.expiresAt = some e ∧ e < 10)))) ∧
     (∀ v, validateApiKey (fun s => s) emptyDb 10 "sk_live_x" = some v →
       ∃ k ∈ emptyDb.apiKeys, k.keyHash = "sk_live_x" ∧ v = toValidatedApiKey k) ∧
     (∀ (o : CreateApiKeyOptions) (newId rand : String) (db2 : Db)
         (secret : String),
       createApiKey (fun s => s) emptyDb newId rand o = Except.ok (db2, secret) →
       (∀ k ∈ emptyDb.apiKeys, k.keyHash ≠ secret) →
       (∀ e, o.expiresAt = some e → ¬e < 10) →
       ∃ v, validateApiKey (fun s => s) db2 10 secret = some v ∧
         v.id = newId ∧ v.keyType = o.keyType ∧ v.scopes = o.scopes)) :=
  validateApiKey_spec (fun s => s) emptyDb 10 "sk_live_x" (by decide)

/-! ## C4: creation-time validation -/

/-- C4: creation fails with a validation error exactly for the invalid
type / owner / site / scope combinations, and a successful creation
appends a record carrying the requested type, owner, site and scopes and
the hash of the returned secret. -/
theorem createApiKey_validation (hashFn : String → String) (db : Db)
    (newId rand : String) (o : CreateApiKeyOptions) :
    ((∃ e, createApiKey hashFn db newId rand o = Except.error e) ↔
      ((o.keyType = KeyType.user ∧ o.userId = none) ∨
       (o.keyType = KeyType.site ∧ (o.siteId = none ∨ o.userId = none)) ∨
       (o.keyType = KeyType.admin ∧ (o.userId ≠ none ∨ o.siteId ≠ none)) ∨
       (o.keyType ≠ KeyType.admin ∧ Scope.admin ∈ o.scopes))) ∧
    (∀ (db2 : Db) (secret : String),
      createApiKey hashFn db newId rand o = Except.ok (db2, secret) →
      ∃ k, db2.apiKeys = db.apiKeys ++ [k] ∧ k.id = newId ∧
        k.keyType = o.keyType ∧ k.userId = o.userId ∧ k.siteId = o.siteId ∧
        k.scopes = o.scopes ∧ k.keyHash = hashFn secret ∧ k.isActive = true) := by
  obtain ⟨nm, ds, kt, uid, sid, sc, rlm, rld, exp, ips, ogs⟩ := o
  constructor
  · cases hcc : sc.contains Scope.admin with
    | false =>
      have hmem : Scope.admin ∉ sc := fun h => by
        rw [← contains_mem_iff sc Scope.admin, hcc] at h
        cases h
      cases kt <;> cases uid <;> cases sid <;>
        simp [createApiKey, createKeyError, hcc, hmem]
    | true =>
      have hmem : Scope.admin ∈ sc := (contains_mem_iff sc Scope.admin).mp hcc
      cases kt <;> cases uid <;> cases sid <;>
        simp [createApiKey, createKeyError, hcc, hmem]
  · intro db2 secret hok
    cases hce : createKeyError ⟨nm, ds, kt, uid, sid, sc, rlm, rld, exp, ips, ogs⟩ with
    | some e => simp [createApiKey, hce] at hok
    | none =>
      simp only [createApiKey, hce, Except.ok.injEq, Prod.mk.injEq] at hok
      obtain ⟨hdb2, hsecret⟩ := hok
      subst hdb2
      subst hsecret
      exact ⟨_, rfl, rfl, rfl, rfl, rfl, rfl, rfl, rfl⟩

/-- Witness for C4: a user-type option set with no owner, over the empty
database. -/
theorem createApiKey_validation_witness :
    ((∃ e, createApiKey (fun s => s) emptyDb "id-1" "rand"
        ⟨"NoOwner", none, KeyType.user, none, none, [Scope.read], 60, 10000,
          none, [], []⟩ = Except.error e) ↔
      ((KeyType.user = KeyType.user ∧ (none : Option String) = none) ∨
       (KeyType.user = KeyType.site ∧
         ((none : Option String) = none ∨ (none : Option String) = none)) ∨
       (KeyType.user = KeyType.admin ∧
         ((none : Option String) ≠ none ∨ (none : Option String) ≠ none)) ∨
       (KeyType.user ≠ KeyType.admin ∧ Scope.admin ∈ [Scope.read]))) ∧
    (∀ (db2 : Db) (secret : String),
      createApiKey (fun s => s) emptyDb "id-1" "rand"
        ⟨"NoOwner", none, KeyType.user, none, none, [Scope.read], 60, 10000,
          none, [], []⟩ = Except.ok (db2, secret) →
      ∃ k, db2.apiKeys = emptyDb.apiKeys ++ [k] ∧ k.id = "id-1" ∧
        k.keyType = KeyType.user ∧ k.userId = none ∧ k.siteId = none ∧
        k.scopes = [Scope.read] ∧ k.keyHash = secret ∧ k.isActive = true) :=
  createApiKey_validation (fun s => s) emptyDb "id-1" "rand"
    ⟨"NoOwner", none, KeyType.user, none, none, [Scope.read], 60, 10000,
      none, [], []⟩

/-! ## C7: revocation -/

/-- Revocation never touches the stored hash. -/
theorem revokeRecord_keyHash (kid : String) (a r : Option String) (t : Nat)
    (k : ApiKeyRecord) : (revokeRecord kid a r t k).keyHash = k.keyHash := by
  unfold revokeRecord
  split <;> rfl

/-- After revocation of its id, a record always carries a revocation
timestamp. -/
theorem revokeRecord_revoked (kid : String) (a r : Option String) (t : Nat)
    (k : ApiKeyRecord) (hid : k.id = kid) :
    (revokeRecord kid a r t k).revokedAt ≠ none := by
  unfold revokeRecord
  cases hr : k.revokedAt with
  | none => simp [hid, hr]
  | some x => simp [hid, hr]

/-- A revoked record never passes the validator liveness test. -/
theorem keyIsLive_of_revoked (k : ApiKeyRecord) (t : Nat)
    (h : k.revokedAt ≠ none) : keyIsLive k t = false := by
  cases hr : k.revokedAt with
  | none => exact absurd hr h
  | some x => simp [keyIsLive, hr]

/-- Revoking twice leaves the record of the first revocation untouched. -/
theorem revokeRecord_idem (kid : String) (a r : Option String) (t1 : Nat)
    (a2 r2 : Option String) (t2 : Nat) (k : ApiKeyRecord) :
    revokeRecord kid a2 r2 t2 (revokeRecord kid a r t1 k) =
      revokeRecord kid a r t1 k := by
  cases hb : k.id == kid && k.revokedAt == none with
  | false => simp [revokeRecord, hb]
  | true => simp [revokeRecord, hb]

/-- C7: revocation deactivates the key and sets the revocation timestamp,
actor and reason; the secret of a key whose hash points at the revoked id
no longer validates; a second revocation is a no-op that keeps the
original revocation timestamp; and no revocation or usage-recording step
ever clears a revocation timestamp or reactivates a key. -/
theorem revokeApiKey_spec (db : Db) (keyId : String)
    (actor reason : Option String) (now now2 : Nat)
    (hashFn : String → String) (raw : String) :
    (∀ k ∈ db.apiKeys, k.id = keyId → k.revokedAt = none →
      { k with isActive := false
             , revokedAt := some now
             , revokedBy := actor
             , revokeReason := reason } ∈
          (revokeApiKey db keyId actor reason now).apiKeys) ∧
    ((∀ k ∈ db.apiKeys, k.keyHash = hashFn raw → k.id = keyId) →
      validateApiKey hashFn (revokeApiKey db keyId actor reason now) now2 raw =
        none) ∧
    (∀ (actor2 reason2 : Option String) (now3 : Nat),
      revokeApiKey (revokeApiKey db keyId actor reason now) keyId actor2
          reason2 now3 =
        revokeApiKey db keyId actor reason now) ∧
    (∀ (keyId2 : String) (actor2 reason2 : Option String) (now3 : Nat)
        (k : ApiKeyRecord), k.revokedAt ≠ none →
      (revokeRecord keyId2 actor2 reason2 now3 k).revokedAt = k.revokedAt ∧
      (revokeRecord keyId2 actor2 reason2 now3 k).isActive = k.isActive) ∧
    (∀ (keyId2 : String) (e : UsageEvent) (k2 : ApiKeyRecord),
      k2 ∈ (recordUsage db keyId2 e).apiKeys →
      ∃ k ∈ db.apiKeys, k2.revokedAt = k.revokedAt ∧ k2.isActive = k.isActive) := by
  refine ⟨?_, ?_, ?_, ?_, ?_⟩
  · intro k hk hid hrev
    refine List.mem_map.mpr ⟨k, hk, ?_⟩
    simp [revokeRecord, hid, hrev]
  · intro hall
    unfold validateApiKey
    have hmap : (revokeApiKey db keyId actor reason now).apiKeys =
        db.apiKeys.map (revokeRecord keyId actor reason now) := rfl
    have hcomp : ((fun k : ApiKeyRecord => k.keyHash == hashFn raw) ∘
        revokeRecord keyId actor reason now) =
        (fun k : ApiKeyRecord => k.keyHash == hashFn raw) :=
      funext fun k => by simp [Function.comp, revokeRecord_keyHash]
    rw [hmap, List.find?_map, hcomp]
    cases hf : db.apiKeys.find? (fun k => k.keyHash == hashFn raw) with
    | none => rfl
    | some k =>
      have hmem := List.mem_of_find?_eq_some hf
      have hkh : k.keyHash = hashFn raw := by simpa using List.find?_some hf
      have hid := hall k hmem hkh
      have hdead := keyIsLive_of_revoked
        (revokeRecord keyId actor reason now k) now2
        (revokeRecord_revoked keyId actor reason now k hid)
      simp [hdead]
  · intro actor2 reason2 now3
    unfold revokeApiKey
    simp only [List.map_map]
    congr 1
    refine List.map_congr_left ?_
    intro k _
    exact revokeRecord_idem keyId actor reason now actor2 reason2 now3 k
  · intro keyId2 actor2 reason2 now3 k h
    cases hr : k.revokedAt with
    | none => exact absurd hr h
    | some x => constructor <;> simp [revokeRecord, hr]
  · intro keyId2 e k2 hk2
    have hk2m := List.mem_map.mp hk2
    obtain ⟨k, hk, hfk⟩ := hk2m
    subst hfk
    by_cases hid : k.id == keyId2
    · exact ⟨k, hk, by simp [hid], by simp [hid]⟩
    · exact ⟨k, hk, by simp [hid], by simp [hid]⟩

/-- An active stored user key used by the revocation witness. -/
def activeKeyRec : ApiKeyRecord :=
  ⟨"key-1", "Key1", none, "hash-1", KeyType.user, some "user-1", none,
    [Scope.read], 60, 10000, true, none, none, none, none, [], [], 0, none⟩

/-- A database holding just the active user key. -/
def dbOneKey : Db := ⟨[activeKeyRec], [], [], [], []⟩

/-- Witness for C7: revoking the only key of a one-key database. -/
theorem revokeApiKey_spec_witness :
    (∀ k ∈ dbOneKey.apiKeys, k.id = "key-1" → k.revokedAt = none →
      { k with isActive := false
             , revokedAt := some 5
             , revokedBy := some "user-2"
             , revokeReason := some "rotation" } ∈
          (revokeApiKey dbOneKey "key-1" (some "user-2") (some "rotation") 5).apiKeys) ∧
    ((∀ k ∈ dbOneKey.apiKeys, k.keyHash = "hash-1" → k.id = "key-1") →
      validateApiKey (fun s => s)
          (revokeApiKey dbOneKey "key-1" (some "user-2") (some "rotation") 5) 6
          "hash-1" = none) ∧
    (∀ (actor2 reason2 : Option String) (now3 : Nat),
      revokeApiKey
          (revokeApiKey dbOneKey "key-1" (some "user-2") (some "rotation") 5)
          "key-1" actor2 reason2 now3 =
        revokeApiKey dbOneKey "key-1" (some "user-2") (some "rotation") 5) ∧
    (∀ (keyId2 : String) (actor2 reason2 : Option String) (now3 : Nat)
        (k : ApiKeyRecord), k.revokedAt ≠ none →
      (revokeRecord keyId2 actor2 reason2 now3 k).revokedAt = k.revokedAt ∧
      (revokeRecord keyId2 actor2 reason2 now3 k).isActive = k.isActive) ∧
    (∀ (keyId2 : String) (e : UsageEvent) (k2 : ApiKeyRecord),
      k2 ∈ (recordUsage dbOneKey keyId2 e).apiKeys →
      ∃ k ∈ dbOneKey.apiKeys, k2.revokedAt = k.revokedAt ∧
        k2.isActive = k.isActive) :=
  revokeApiKey_spec dbOneKey "key-1" (some "user-2") (some "rotation") 5 6
    (fun s => s) "hash-1"

/-! ## C9: usage statistics -/

/-- The endpoint comparator is total. -/
theorem endpointLE_total (a b : String × Nat) :
    endpointLE a b = true ∨ endpointLE b a = true := by
  simp only [endpointLE, Bool.or_eq_true, Bool.and_eq_true, decide_eq_true_eq]
  rcases lt_trichotomy a.2 b.2 with h | h | h
  · exact Or.inr (Or.inl h)
  · rcases le_total a.1 b.1 with h2 | h2
    · exact Or.inl (Or.inr ⟨h, h2⟩)
    · exact Or.inr (Or.inr ⟨h.symm, h2⟩)
  · exact Or.inl (Or.inl h)

/-- The endpoint comparator is transitive. -/
theorem endpointLE_trans (a b c : String × Nat) (h1 : endpointLE a b = true)
    (h2 : endpointLE b c = true) : endpointLE a c = true := by
  simp only [endpointLE, Bool.or_eq_true, Bool.and_eq_true,
    decide_eq_true_eq] at h1 h2 ⊢
  rcases h1 with h1 | ⟨h1e, h1s⟩ <;> rcases h2 with h2 | ⟨h2e, h2s⟩
  · exact Or.inl (lt_trans h2 h1)
  · exact Or.inl (h2e ▸ h1)
  · exact Or.inl (by rw [h1e]; exact h2)
  · exact Or.inr ⟨h1e.trans h2e, le_trans h1s h2s⟩

/-- Membership through insertion. -/
theorem mem_insertEndpoint (x z : String × Nat) (l : List (String × Nat)) :
    z ∈ insertEndpoint x l ↔ z = x ∨ z ∈ l := by
  induction l with
  | nil => simp [insertEndpoint]
  | cons y ys ih =>
    unfold insertEndpoint
    by_cases h : endpointLE x y = true
    · rw [if_pos h]
      simp [List.mem_cons]
    · rw [if_neg h]
      simp [List.mem_cons, ih]
      tauto

/-- Insertion preserves sortedness by the endpoint comparator. -/
theorem pairwise_insertEndpoint (x : String × Nat) (l : List (String × Nat))
    (hl : l.Pairwise (fun a b => endpointLE a b = true)) :
    (insertEndpoint x l).Pairwise (fun a b => endpointLE a b = true) := by
  induction l with
  | nil => simp [insertEndpoint]
  | cons y ys ih =>
    rcases List.pairwise_cons.mp hl with ⟨hy, hys⟩
    unfold insertEndpoint
    by_cases hxy : endpointLE x y = true
    · rw [if_pos hxy]
      refine List.pairwise_cons.mpr ⟨?_, hl⟩
      intro z hz
      rcases List.mem_cons.mp hz with rfl | hz
      · exact hxy
      · exact endpointLE_trans x y z hxy (hy z hz)
    · rw [if_neg hxy]
      refine List.pairwise_cons.mpr ⟨?_, ih hys⟩
      intro z hz
      rcases (mem_insertEndpoint x z ys).mp hz with rfl | hz
      · rcases endpointLE_total z y with h | h
        · exact absurd h hxy
        · exact h
      · exact hy z hz

/-- The insertion sort yields a list sorted by the endpoint comparator. -/
theorem sortEndpoints_pairwise (l : List (String × Nat)) :
    (sortEndpoints l).Pairwise (fun a b => endpointLE a b = true) := by
  induction l with
  | nil => simp [sortEndpoints]
  | cons x xs ih => exact pairwise_insertEndpoint x _ ih

/-- The database after the three usage recordings of the vitest scenario:
two successful events on the posts endpoint and one failed event on the
comments endpoint. -/
def dbStats : Db :=
  recordUsage
    (recordUsage
      (recordUsage ⟨[], [], [], [], []⟩ "key-1"
        ⟨"key-1", "/api/posts", "GET", some 200, some 50, none, none, none, 1⟩)
      "key-1"
      ⟨"key-1", "/api/posts", "POST", some 201, some 100, none, none, none, 2⟩)
    "key-1"
    ⟨"key-1", "/api/comments", "GET", some 500, some 200, none, none, none, 3⟩

/-- C9: the ranked endpoint list of the usage statistics is always
ordered by request count descending with ties broken by endpoint name
ascending, and the recorded scenario of two 2xx and one 5xx event yields
three total requests, two successful, one failed, the arithmetic mean of
the three response times, and both endpoints ranked by count. -/
theorem getKeyUsageStats_spec :
    (∀ (db : Db) (keyId : String) (sd ed : Option Nat),
      (getKeyUsageStats db keyId sd ed).topEndpoints.Pairwise
        (fun a b => b.2 < a.2 ∨ (a.2 = b.2 ∧ a.1 ≤ b.1))) ∧
    ((getKeyUsageStats dbStats "key-1" none none).totalRequests = 3 ∧
     (getKeyUsageStats dbStats "key-1" none none).successfulRequests = 2 ∧
     (getKeyUsageStats dbStats "key-1" none none).failedRequests = 1 ∧
     (getKeyUsageStats dbStats "key-1" none none).avgResponseTime =
       (50 + 100 + 200) / 3 ∧
     (getKeyUsageStats dbStats "key-1" none none).topEndpoints =
       [("/api/posts", 2), ("/api/comments", 1)]) := by
  constructor
  · intro db keyId sd ed
    have hs := sortEndpoints_pairwise
      (((db.usage.filter fun e =>
          e.apiKeyId == keyId && inRange sd ed e.createdAt).map
            fun e => e.endpoint).eraseDups.map
        fun n => (n, ((db.usage.filter fun e =>
          e.apiKeyId == keyId && inRange sd ed e.createdAt).filter
            fun e => e.endpoint == n).length))
    have htake := List.Pairwise.sublist (List.take_sublist 5 _) hs
    refine List.Pairwise.imp ?_ htake
    intro a b hab
    simpa only [endpointLE, Bool.or_eq_true, Bool.and_eq_true,
      decide_eq_true_eq] using hab
  · refine ⟨by decide, by decide, by decide, ?_, by decide⟩
    simp [getKeyUsageStats, dbStats, recordUsage, inRange,
      List.filterMap_cons]
    norm_num

/-! ## C10: the authentication middleware and the Origin header -/

/-- A stored key restricted to one allowed origin. -/
def originRestrictedRec : ApiKeyRecord :=
  ⟨"key-o", "OriginKey", none, "hash-o", KeyType.user, some "user-1", none,
    [Scope.read], 60, 10000, true, none, none, none, none, [],
    ["http://allowed.example.com"], 0, none⟩

/-- A database holding just the origin-restricted key. -/
def dbOrigin : Db := ⟨[originRestrictedRec], [], [], [], []⟩

/-- A request presenting the key through the X-API-Key header, with no
Origin header. -/
def reqNoOrigin : HttpRequest :=
  ⟨none, some "hash-o", none, none, some "127.0.0.1"⟩

/-- C10: a request with no Origin header is never rejected by the origin
check — it authenticates whenever extraction, validation and the IP check
succeed, whatever the allowed-origins list — while the IP allow-list is
enforced on every authenticated request. -/
theorem authenticateApiKey_origin_spec (hashFn : String → String) (db : Db)
    (now : Nat) :
    (∀ (req : HttpRequest) (raw : String) (v : ValidatedApiKey),
      extractApiKey req = some raw →
      validateApiKey hashFn db now raw = some v →
      isIpAllowed v (getClientIp req) = true →
      req.origin = none →
      authenticateApiKey hashFn db now req = AuthResult.ok v) ∧
    (∀ (req : HttpRequest) (v : ValidatedApiKey),
      authenticateApiKey hashFn db now req = AuthResult.ok v →
      isIpAllowed v (getClientIp req) = true) := by
  constructor
  · intro req raw v hex hval hip hor
    simp [authenticateApiKey, hex, hval, hip, hor]
  · intro req v hok
    unfold authenticateApiKey at hok
    cases hex : extractApiKey req with
    | none => simp [hex] at hok
    | some raw =>
      simp only [hex] at hok
      cases hval : validateApiKey hashFn db now raw with
      | none => simp [hval] at hok
      | some v2 =>
        simp only [hval] at hok
        cases hip : isIpAllowed v2 (getClientIp req) with
        | false => simp [hip] at hok
        | true =>
          simp only [hip] at hok
          cases hor : req.origin with
          | none =>
            simp [hor] at hok
            exact hok ▸ hip
          | some o =>
            simp only [hor] at hok
            cases hoa : isOriginAllowed v2 o with
            | false => simp [hoa] at hok
            | true =>
              simp [hoa] at hok
              exact hok ▸ hip

/-- Witness for C10: the origin-restricted key on a request carrying no
Origin header authenticates. -/
theorem authenticateApiKey_origin_spec_witness :
    extractApiKey reqNoOrigin = some "hash-o" ∧
    validateApiKey (fun s => s) dbOrigin 0 "hash-o" =
      some (toValidatedApiKey originRestrictedRec) ∧
    isIpAllowed (toValidatedApiKey originRestrictedRec)
      (getClientIp reqNoOrigin) = true ∧
    reqNoOrigin.origin = none ∧
    (toValidatedApiKey originRestrictedRec).allowedOrigins ≠ [] ∧
    authenticateApiKey (fun s => s) dbOrigin 0 reqNoOrigin =
      AuthResult.ok (toValidatedApiKey originRestrictedRec) :=
  ⟨by decide, by decide, by decide, rfl, by decide,
    (authenticateApiKey_origin_spec (fun s => s) dbOrigin 0).1 reqNoOrigin
      "hash-o" (toValidatedApiKey originRestrictedRec) (by decide) (by decide)
      (by decide) rfl⟩

/-! ## Agreement of the SQL access check with the modelled resolver -/

/-- For a key the SQL function fetches (live, by id) that satisfies the
`valid_scopes` table constraint (the admin scope only on admin keys), the
SQL function `api_key_has_access` of `007_api_keys.sql` agrees with the
modelled `hasAccessToSite` on the projected identity. -/
theorem api_key_has_access_agrees (db : Db) (now : Nat) (k : ApiKeyRecord)
    (siteId : String) (s : Scope)
    (hfind : db.apiKeys.find?
      (fun k2 => k2.id == k.id && keyIsLiveSql k2 now) = some k)
    (hscopes : k.keyType ≠ KeyType.admin → Scope.admin ∉ k.scopes) :
    api_key_has_access db now k.id siteId s =
      hasAccessToSite db (toValidatedApiKey k) siteId s := by
  cases hkt : k.keyType with
  | admin =>
    simp [api_key_has_access, hasAccessToSite, hfind, toValidatedApiKey, hkt]
  | site =>
    have hadm : Scope.admin ∉ k.scopes := hscopes (by simp [hkt])
    have hc : k.scopes.contains Scope.admin = false := by
      cases hcc : k.scopes.contains Scope.admin with
      | false => rfl
      | true => exact absurd ((contains_mem_iff k.scopes Scope.admin).mp hcc) hadm
    cases hcs : k.scopes.contains s <;>
      simp [api_key_has_access, hasAccessToSite, hasScope, hfind,
        toValidatedApiKey, hkt, hc, hcs, hadm, siteOwnedBy, siteHasMember,
        findGrant]
  | user =>
    have hadm : Scope.admin ∉ k.scopes := hscopes (by simp [hkt])
    have hc : k.scopes.contains Scope.admin = false := by
      cases hcc : k.scopes.contains Scope.admin with
      | false => rfl
      | true => exact absurd ((contains_mem_iff k.scopes Scope.admin).mp hcc) hadm
    cases hcs : k.scopes.contains s <;>
      simp [api_key_has_access, hasAccessToSite, hasScope, hfind,
        toValidatedApiKey, hkt, hc, hcs, hadm, siteOwnedBy, siteHasMember,
        findGrant]

end BlogServer
